/-
Verification of the communityMUD character-generation subsystem.

This file gives a shallow embedding, in Lean 4, of the Python code in
  communityMUD/typeclasses/races.py      (race registry, apply_race)
  communityMUD/typeclasses/classes.py    (class registry, apply_class)
  communityMUD/typeclasses/chargen.py    (menu-driven chargen workflow)
  communityMUD/typeclasses/characters.py (character creation defaults)
  communityMUD/utils/resources.py        (get_text_resource)
and proves/refutes the frozen claims about it.

Modelling conventions:
 - Python strings are Lean `String`; Python `None`-or-string values are
   `Option String` (`none` = Python `None` / attribute absent).
 - Python string methods (`strip`, `lower`, `capitalize`, `title`,
   `isalpha`, `int(...)` parsing) are re-implemented below for the ASCII
   inputs this code deals with; Python semantics beyond ASCII (unicode
   case folding / unicode whitespace classes) are out of scope.
 - Character entities are a record of the `db.*` fields this subsystem
   touches, plus the attached-scripts collection (a list of script
   records) and the transient `ndb._chargen_*` shadow fields.
 - The EvMenu engine is modelled as a step function on a menu state:
   each step consumes one line of input at the current node, runs the
   node input handler from chargen.py, and enters the next node
   (running the next node body's kwargs-restoration logic, which in the
   source runs when the node renders).  `auto_quit` is modelled by the
   inputs "q"/"quit" aborting the menu without touching the character.
 - Python truthiness of the `True`-or-error-string return of
   apply_race/apply_class is modelled by `ApplyResult.truthy`.
-/
import Mathlib

namespace CommunityMUD

/-! ### Python string primitives -/

/-- The six ASCII characters Python `str.strip()` removes
(unicode whitespace is out of modelled scope). -/
def isPySpace (c : Char) : Bool :=
  c = ' ' || c = '\t' || c = '\n' || c = '\r' || c = '\x0b' || c = '\x0c'

/-- Python `str.strip()`: drop leading and trailing whitespace. -/
def pyStrip (s : String) : String :=
  String.mk (((s.toList.dropWhile isPySpace).reverse.dropWhile isPySpace).reverse)

/-- Python `str.lower()` (ASCII). -/
def pyLower (s : String) : String :=
  String.mk (s.toList.map Char.toLower)

/-- Python `str.upper()` of one character (ASCII). -/
def pyUpperChar (c : Char) : Char := c.toUpper

/-- Python `str.capitalize()`: first character uppercased, rest lowercased. -/
def pyCapitalize (s : String) : String :=
  match s.toList with
  | [] => ""
  | c :: rest => String.mk (pyUpperChar c :: rest.map Char.toLower)

/-- Helper for `pyTitle`: walk the characters tracking whether the previous
character was alphabetic (cased). -/
def pyTitleGo : Bool → List Char → List Char
  | _, [] => []
  | prevAlpha, c :: cs =>
    (if c.isAlpha then (if prevAlpha then c.toLower else c.toUpper) else c)
      :: pyTitleGo c.isAlpha cs

/-- Python `str.title()` (ASCII): uppercase every letter that follows a
non-letter, lowercase the other letters. -/
def pyTitle (s : String) : String :=
  String.mk (pyTitleGo false s.toList)

/-- Python `str.isalpha()` (ASCII): non-empty and all letters. -/
def pyIsAlpha (s : String) : Bool :=
  !s.toList.isEmpty && s.toList.all Char.isAlpha

/-- Digit run of a Python integer literal: digits with single underscores
allowed between digits (`int("1_0") = 10`, `int("1_")` raises). -/
def pyIntDigits : Nat → List Char → Option Nat
  | acc, [] => some acc
  | acc, '_' :: c :: cs =>
    if c.isDigit then pyIntDigits (acc * 10 + (c.toNat - 48)) cs else none
  | acc, c :: cs =>
    if c.isDigit then pyIntDigits (acc * 10 + (c.toNat - 48)) cs else none

/-- Nonempty digit sequence. -/
def pyIntCore : List Char → Option Nat
  | [] => none
  | c :: cs => if c.isDigit then pyIntDigits (c.toNat - 48) cs else none

/-- Python `int(s)` on an already-stripped string: optional sign then
digits; `none` models a raised `ValueError`. -/
def pyParseInt (s : String) : Option Int :=
  match s.toList with
  | '+' :: cs => (pyIntCore cs).map (Int.ofNat)
  | '-' :: cs => (pyIntCore cs).map (fun n => -(Int.ofNat n))
  | cs => (pyIntCore cs).map (Int.ofNat)

/-- A single-quote character, used to reproduce the quoted identifiers in
the Python error message f-strings. -/
def sq : String := String.mk [Char.ofNat 39]

/-! ### Data model: scripts and characters

`characters.py` / `races.py` / `classes.py`. -/

/-- An attached script, as far as this subsystem reads it: its `key`, the
`db.name` it carries, and (class scripts) the `db.skills` mapping. -/
structure Script where
  key : String
  name : String
  skills : List (String × Nat)
deriving DecidableEq, Repr

/-- The character entity: the `db.*` fields this subsystem touches, the
attached-scripts collection, and the transient `ndb._chargen_*` fields.
Fresh characters come from `Character.at_object_creation` below. -/
structure Character where
  key : String
  race : Option String          -- db.race
  char_class : Option String    -- db.char_class
  chargen_complete : Bool       -- db.chargen_complete
  skills : List (String × Nat)  -- db.skills
  scripts : List Script         -- character.scripts.all()
  ndb_name : Option String      -- ndb._chargen_name   (none = absent)
  ndb_email : Option String     -- ndb._chargen_email
  ndb_race : Option String      -- ndb._chargen_race
  ndb_class : Option String     -- ndb._chargen_class
deriving DecidableEq, Repr

/-- `Character.at_object_creation` (characters.py): the `db` fields a fresh
character starts with (stats/equipment/max_inventory are never read or
written by the chargen subsystem and are omitted). -/
def at_object_creation (key : String) : Character :=
  { key := key
    race := none
    char_class := none
    chargen_complete := false
    skills := []
    scripts := []
    ndb_name := none, ndb_email := none, ndb_race := none, ndb_class := none }

/-! ### Race registry (races.py) -/

/-- A race entry of `race_map`: the script class's `script_key` and the
`db.name` its `at_script_creation` sets. -/
structure RaceDef where
  script_key : String
  name : String
deriving DecidableEq, Repr

/-- `HumanRace`: script_key "human_race", db.name "Human". -/
def HumanRace : RaceDef := { script_key := "human_race", name := "Human" }

/-- `race_map = {"human": HumanRace}`, looked up on `race_name.lower()`. -/
def race_map (k : String) : Option RaceDef :=
  if k = "human" then some HumanRace else none

/-- The keys of `race_map`, in order (for the error message). -/
def raceMapKeys : List String := ["human"]

/-- `race_keys = [rc.script_key for rc in race_map.values()]`. -/
def race_keys : List String := [HumanRace.script_key]

/-- `get_available_races()` returns `["Human"]`. -/
def get_available_races : List String := ["Human"]

/-- Result of `apply_race`/`apply_class`: Python returns `True` on success
and an error-message string on failure. -/
inductive ApplyResult where
  | ok : ApplyResult
  | err : String → ApplyResult
deriving DecidableEq, Repr

/-- Python truthiness of an `apply_race`/`apply_class` return value:
`True` is truthy; a string is truthy iff non-empty. -/
def ApplyResult.truthy : ApplyResult → Bool
  | .ok => true
  | .err m => !m.isEmpty

/-- The script `create_script(race_class, obj=character)` attaches: its
`at_script_creation` sets `key = script_key` and `db.name = name`
(race scripts carry no skills copied to the character). -/
def mkRaceScript (rd : RaceDef) : Script :=
  { key := rd.script_key, name := rd.name, skills := [] }

/-- `apply_race(character, race_name)` (races.py lines 96-132): look up
`race_name.lower()`; unknown race returns the error string (character
untouched); otherwise delete exactly the scripts whose key is in
`race_keys`, attach a fresh race script, and set `db.race` to the script's
`db.name` (the script's own `apply_race` method). -/
def apply_race (character : Character) (race_name : String) :
    ApplyResult × Character :=
  match race_map (pyLower race_name) with
  | none =>
    (.err ("Race " ++ sq ++ race_name ++ sq ++ " not found. Available races: "
        ++ String.intercalate ", " raceMapKeys), character)
  | some rd =>
    let character :=
      { character with
        scripts := character.scripts.filter
            (fun sc => !race_keys.contains (Script.key sc)) ++ [mkRaceScript rd] }
    (.ok, { character with race := some rd.name })

/-! ### Class registry (classes.py) -/

/-- A class entry of `class_map`: script_key, `db.name` and the `db.skills`
mapping copied onto the character. -/
structure ClassDef where
  script_key : String
  name : String
  skills : List (String × Nat)
deriving DecidableEq, Repr

/-- `WarriorClass`: script_key "warrior_class", db.name "Warrior",
db.skills {"combat": 1, "survival": 1}. -/
def WarriorClass : ClassDef :=
  { script_key := "warrior_class", name := "Warrior"
    skills := [("combat", 1), ("survival", 1)] }

/-- `class_map = {"warrior": WarriorClass}`, looked up on
`class_name.lower()`. -/
def class_map (k : String) : Option ClassDef :=
  if k = "warrior" then some WarriorClass else none

/-- The keys of `class_map`, in order (for the error message). -/
def classMapKeys : List String := ["warrior"]

/-- `class_keys = [cc.script_key for cc in class_map.values()]`. -/
def class_keys : List String := [WarriorClass.script_key]

/-- `get_available_classes()` returns `["Warrior"]`. -/
def get_available_classes : List String := ["Warrior"]

/-- The script attached by `apply_class`. -/
def mkClassScript (cd : ClassDef) : Script :=
  { key := cd.script_key, name := cd.name, skills := cd.skills }

/-- `apply_class(character, class_name)` (classes.py lines 111-148):
symmetric to `apply_race`; additionally the script's `apply_class` method
overwrites `db.skills` with the class's skills mapping. -/
def apply_class (character : Character) (class_name : String) :
    ApplyResult × Character :=
  match class_map (pyLower class_name) with
  | none =>
    (.err ("Class " ++ sq ++ class_name ++ sq ++ " not found. Available classes: "
        ++ String.intercalate ", " classMapKeys), character)
  | some cd =>
    let character :=
      { character with
        scripts := character.scripts.filter
            (fun sc => !class_keys.contains (Script.key sc)) ++ [mkClassScript cd] }
    (.ok, { character with char_class := some cd.name, skills := cd.skills })

/-! ### Chargen workflow (chargen.py)

The EvMenu-driven wizard is modelled as a state machine.  A state holds
the current node, the kwargs dict threaded between nodes (each field
`Option String`, `none` = key absent), the character, and the account's
`email` field.  One `step` consumes one line of input: it runs the
current node's `_check_input` handler (with the node-body kwargs
restoration already folded into the stored kwargs, see `enterNode`),
then enters the next node. -/

/-- The menu nodes of chargen.py, plus `done` (the menu has ended after
`node_apply_character`, which renders no options).  Engine-level menu
commands (the `auto_quit` "q"/"quit", help) belong to the external
EvMenu collaborator, which the spec scopes out; they are not modelled
(none of them touches workflow state). -/
inductive Node where
  | welcome | nameN | emailN | raceN | classN | confirmN | done
deriving DecidableEq, Repr

/-- The kwargs dict threaded through the menu: only the keys the source
ever sets ("email", "race", "char_class").  `none` models key-absent. -/
structure Kwargs where
  email : Option String
  race : Option String
  char_class : Option String
deriving DecidableEq, Repr

/-- The empty kwargs dict `{}`. -/
def Kwargs.empty : Kwargs := ⟨none, none, none⟩

/-- Python truthiness of a maybe-absent string value. -/
def optTruthy : Option String → Bool
  | none => false
  | some s => !s.isEmpty

/-- A full menu state. -/
structure MenuState where
  node : Node
  kw : Kwargs
  ch : Character
  accountEmail : String
deriving DecidableEq, Repr

/-- The kwargs-restoration logic each node body runs when it renders
(chargen.py: node_race lines 180-188, node_class lines 275-290,
node_confirm lines 381-403): values absent from the threaded kwargs are
re-derived from the character's `ndb._chargen_*` fields.  The email
checks use `is None`; the race/class checks use Python truthiness. -/
def enterNode (n : Node) (kw : Kwargs) (ch : Character) : Kwargs :=
  match n with
  | .raceN =>
    { kw with email :=
        if kw.email = none ∧ ch.ndb_email ≠ none then ch.ndb_email else kw.email }
  | .classN =>
    let kw :=
      { kw with race :=
          if ¬optTruthy kw.race ∧ optTruthy ch.ndb_race then ch.ndb_race else kw.race }
    { kw with email :=
        if kw.email = none ∧ ch.ndb_email ≠ none then ch.ndb_email else kw.email }
  | .confirmN =>
    let kw :=
      { kw with race :=
          if ¬optTruthy kw.race ∧ optTruthy ch.ndb_race then ch.ndb_race else kw.race }
    let kw :=
      { kw with char_class :=
          if ¬optTruthy kw.char_class ∧ optTruthy ch.ndb_class then ch.ndb_class
          else kw.char_class }
    { kw with email :=
        if kw.email = none ∧ ch.ndb_email ≠ none then ch.ndb_email else kw.email }
  | _ => kw

/-- `node_apply_character` (chargen.py lines 455-509): capitalize the
character's name; persist a non-empty email onto the account; apply race
then class, each guarded by `if not success:` with a hardcoded fallback;
finally set `db.chargen_complete = True` unconditionally.  Returns the
updated character and account email. -/
def node_apply_character (kw : Kwargs) (ch : Character) (accountEmail : String) :
    Character × String :=
  let ch := { ch with key := pyCapitalize ch.key }
  let email := kw.email.getD ""
  let accountEmail := if !email.isEmpty then email else accountEmail
  let race := kw.race.getD "Human"
  let r1 := apply_race ch race
  let ch := if !r1.1.truthy then { r1.2 with race := some "Human" } else r1.2
  let char_class := kw.char_class.getD "Warrior"
  let r2 := apply_class ch char_class
  let ch := if !r2.1.truthy then { r2.2 with char_class := some "Warrior" } else r2.2
  ({ ch with chargen_complete := true }, accountEmail)

/-- `node_name._check_input` (chargen.py lines 54-99) on an input line:
`none` = re-prompt (no state change), `some (ch, key)` = accepted, with
the capitalized name written to `character.key` and `ndb._chargen_name`.
`env` is the set of other existing character names (the `ObjectDB`
query excludes the character being generated). -/
def checkName (env : List String) (ch : Character) (input : String) :
    Option Character :=
  let name := pyStrip input
  if name.isEmpty then none
  else if name.length < 2 then none
  else if name.length > 16 then none
  else if ¬pyIsAlpha name then none
  else if env.any (fun k => pyLower k = pyLower name) then none
  else
    let name := pyCapitalize name
    some { ch with key := name, ndb_name := some name }

/-- `node_email._check_input` (chargen.py lines 127-156): empty input
skips (email set to ""), otherwise the input must contain both `@` and
`.`; `none` = re-prompt. -/
def checkEmail (input : String) : Option String :=
  let e := pyStrip input
  if e.isEmpty then some ""
  -- Python `"@" in email` with a one-character needle is character
  -- membership
  else if ¬(e.toList.contains '@') ∨ ¬(e.toList.contains '.') then none
  else some e

/-- Selection logic shared by `node_race._check_input` and
`node_class._check_input` (chargen.py lines 190-247 / 292-353): try the
input as a 1-based index into the listing, else as a `title()`-cased
name; `none` = re-prompt. -/
def checkSelection (available : List String) (input : String) : Option String :=
  let choice := pyStrip input
  if choice.isEmpty then none
  else
    match pyParseInt choice with
    | some n =>
      let index := n - 1
      if 0 ≤ index ∧ index < (available.length : Int) then
        some (available.getD index.toNat "")
      else none
    | none =>
      let choice := pyTitle choice
      if available.contains choice then some choice else none

/-- One step of the EvMenu-driven chargen wizard: consume one input line
at the current node, running the node's `_check_input` handler; `done`
is absorbing.  On a node change the next node's body restoration
(`enterNode`) is applied to the threaded kwargs. -/
def step (env : List String) (s : MenuState) (input : String) : MenuState :=
  match s.node with
    | .welcome =>
      -- options: goto the plain node name "node_name" (no kwargs threaded)
      { s with node := .nameN, kw := enterNode .nameN Kwargs.empty s.ch }
    | .nameN =>
      match checkName env s.ch input with
      | none => s
      | some ch =>
        -- return "node_email", kwargs
        { s with node := .emailN, kw := enterNode .emailN s.kw ch, ch := ch }
    | .emailN =>
      match checkEmail input with
      | none => s
      | some e =>
        -- return "node_race", {"email": email}; email also saved to
        -- ndb._chargen_email and onto the account
        let ch := { s.ch with ndb_email := some e }
        { node := .raceN, kw := enterNode .raceN ⟨some e, none, none⟩ ch
          ch := ch, accountEmail := e }
    | .raceN =>
      match checkSelection get_available_races input with
      | none => s
      | some selected =>
        let ch := { s.ch with ndb_race := some selected }
        let kw := { s.kw with race := some selected }
        -- "Ensure email is in the kwargs" (captured email_from_char)
        let kw :=
          { kw with email :=
              if kw.email = none ∧ ch.ndb_email ≠ none then ch.ndb_email
              else kw.email }
        { s with node := .classN, kw := enterNode .classN kw ch, ch := ch }
    | .classN =>
      match checkSelection get_available_classes input with
      | none => s
      | some selected =>
        let ch := { s.ch with ndb_class := some selected }
        let kw := { s.kw with char_class := some selected }
        let kw :=
          { kw with email :=
              if kw.email = none ∧ ch.ndb_email ≠ none then ch.ndb_email
              else kw.email }
        let kw :=
          { kw with race :=
              if kw.race = none ∧ optTruthy ch.ndb_race then ch.ndb_race
              else kw.race }
        { s with node := .confirmN, kw := enterNode .confirmN kw ch, ch := ch }
    | .confirmN =>
      let choice := pyLower (pyStrip input)
      if choice = "y" ∨ choice = "yes" then
        -- node_apply_character runs at once (it renders no options)
        let r := node_apply_character s.kw s.ch s.accountEmail
        { s with node := .done, ch := r.1, accountEmail := r.2 }
      else if choice = "n" ∨ choice = "no" then
        -- return "node_name", {} — threaded kwargs cleared, ndb fields kept
        { s with node := .nameN, kw := enterNode .nameN Kwargs.empty s.ch }
      else s
    | .done => s

/-- Run a list of input lines through the wizard. -/
def run (env : List String) (s : MenuState) : List String → MenuState
  | [] => s
  | i :: is => run env (step env s i) is

/-! ### Entry point (start_chargen, chargen.py lines 560-595) -/

/-- The account state this subsystem touches: its key, email field and
`db._last_puppet` character. -/
structure AccountState where
  key : String
  email : String
  lastPuppet : Option Character
deriving DecidableEq, Repr

/-- Outcome of `start_chargen`. -/
inductive StartResult where
  | menuStarted : MenuState → StartResult
  | alreadyComplete : StartResult
deriving DecidableEq, Repr

/-- `start_chargen(account)`: fetch (or create) the account's character;
refuse with a notice if `db.chargen_complete` is already true; otherwise
open the EvMenu at `node_welcome`.  Returns the possibly-updated
account, the outcome and the messages sent to the account.
(`create_default_character` is modelled as the framework call
succeeding: a fresh `at_object_creation` character keyed by the account
name.) -/
def start_chargen (acct : AccountState) :
    AccountState × StartResult × List String :=
  match acct.lastPuppet with
  | none =>
    let ch := at_object_creation acct.key
    let acct := { acct with lastPuppet := some ch }
    -- fresh characters have chargen_complete = False
    (acct, .menuStarted { node := .welcome, kw := Kwargs.empty, ch := ch
                          accountEmail := acct.email }, [])
  | some ch =>
    if ch.chargen_complete then
      (acct, .alreadyComplete, ["Character generation already completed."])
    else
      (acct, .menuStarted { node := .welcome, kw := Kwargs.empty, ch := ch
                            accountEmail := acct.email }, [])

/-! ### Derived predicates used by the theorems -/

/-- The validity condition of `node_name._check_input` in one boolean:
non-empty, 2-16 characters, alphabetic, not already taken. -/
def nameValid (env : List String) (input : String) : Bool :=
  let name := pyStrip input
  !name.isEmpty && !(name.length < 2) && !(name.length > 16) && pyIsAlpha name &&
    !(env.any (fun k => pyLower k = pyLower name))

/-- A race has been successfully applied to the character: `db.race`
holds the (unique) registry race's name and exactly one race-definition
script is attached. -/
def raceApplied (c : Character) : Prop :=
  c.race = some HumanRace.name ∧
  (c.scripts.filter (fun sc => race_keys.contains (Script.key sc))).length = 1

/-- A class has been successfully applied to the character: `db.char_class`
holds the (unique) registry class's name, exactly one class-definition
script is attached, and the class skills were copied over. -/
def classApplied (c : Character) : Prop :=
  c.char_class = some WarriorClass.name ∧
  (c.scripts.filter (fun sc => class_keys.contains (Script.key sc))).length = 1 ∧
  c.skills = WarriorClass.skills

/-- Race-valued data the workflow can hold: absent, or a validated
registry race name. -/
def GoodRaceOpt (o : Option String) : Prop := o = none ∨ o = some "Human"

/-- Class-valued data the workflow can hold: absent, or a validated
registry class name. -/
def GoodClassOpt (o : Option String) : Prop := o = none ∨ o = some "Warrior"

/-- Menu states reachable from `init` by feeding input lines. -/
inductive Reachable (env : List String) (init : MenuState) : MenuState → Prop where
  | refl : Reachable env init init
  | tail {s : MenuState} (i : String) :
      Reachable env init s → Reachable env init (step env s i)

/-- The menu state `start_chargen` opens on a freshly created character
(`create_default_character` keys it by the account name). -/
def chargenInit (accountKey accountEmail : String) : MenuState :=
  { node := .welcome, kw := Kwargs.empty, ch := at_object_creation accountKey
    accountEmail := accountEmail }

/-- The inductive invariant of the chargen state machine: race/class data
held in the threaded kwargs or the ndb shadow fields is always either
absent or a validated registry identifier, `chargen_complete` stays
false until the terminal node has run, and once it has run both
registries have been successfully applied. -/
def Inv (s : MenuState) : Prop :=
  GoodRaceOpt s.kw.race ∧ GoodRaceOpt s.ch.ndb_race ∧
  GoodClassOpt s.kw.char_class ∧ GoodClassOpt s.ch.ndb_class ∧
  (s.node ≠ .done → s.ch.chargen_complete = false) ∧
  (s.node = .done → s.ch.chargen_complete = true ∧
    raceApplied s.ch ∧ classApplied s.ch)

/-- The persistent, workflow-visible part of a menu state: everything
except the transient `ndb` shadow fields (only read through the
kwargs-restoration guards) and the account email (which is written but
never read back into the flow). -/
structure Obs where
  node : Node
  kw : Kwargs
  key : String
  race : Option String
  char_class : Option String
  chargen_complete : Bool
  skills : List (String × Nat)
  scripts : List Script
deriving DecidableEq, Repr

/-- Observable projection of a menu state. -/
def MenuState.obs (s : MenuState) : Obs :=
  ⟨s.node, s.kw, s.ch.key, s.ch.race, s.ch.char_class,
   s.ch.chargen_complete, s.ch.skills, s.ch.scripts⟩

/-- Reassemble a character carrying only the observable fields (shadow
fields cleared). -/
def Obs.toChar (o : Obs) : Character :=
  { key := o.key, race := o.race, char_class := o.char_class
    chargen_complete := o.chargen_complete, skills := o.skills
    scripts := o.scripts
    ndb_name := none, ndb_email := none, ndb_race := none, ndb_class := none }

/-- Well-formedness of the states a (re)started flow visits: at every
node the threaded kwargs hold exactly the choices made since the flow
(re)started, and each shadow field a later node could restore from has
just been rewritten to agree with the kwargs — so stale pre-restart
values are never read. -/
def Shape (s : MenuState) : Prop :=
  match s.node with
  | .welcome => s.kw = Kwargs.empty
  | .nameN => s.kw = Kwargs.empty
  | .emailN => s.kw = Kwargs.empty
  | .raceN => ∃ e, s.kw = ⟨some e, none, none⟩ ∧ s.ch.ndb_email = some e
  | .classN => ∃ e r, s.kw = ⟨some e, some r, none⟩ ∧
      s.ch.ndb_email = some e ∧ s.ch.ndb_race = some r ∧ r ≠ ""
  | .confirmN => ∃ e r c, s.kw = ⟨some e, some r, some c⟩ ∧
      s.ch.ndb_email = some e ∧ s.ch.ndb_race = some r ∧ r ≠ "" ∧
      s.ch.ndb_class = some c ∧ c ≠ ""
  | .done => True

/-- The observable outcome of one step, computed from the observable
state alone (under `Shape` the restoration guards never fire, so the
shadow fields are not needed). -/
def stepObs (env : List String) (o : Obs) (i : String) : Obs :=
  match o.node with
  | .welcome => { o with node := .nameN, kw := Kwargs.empty }
  | .nameN =>
    if nameValid env i then
      { o with node := .emailN, key := pyCapitalize (pyStrip i) }
    else o
  | .emailN =>
    match checkEmail i with
    | none => o
    | some e => { o with node := .raceN, kw := ⟨some e, none, none⟩ }
  | .raceN =>
    match checkSelection get_available_races i with
    | none => o
    | some sel => { o with node := .classN, kw := { o.kw with race := some sel } }
  | .classN =>
    match checkSelection get_available_classes i with
    | none => o
    | some sel =>
      { o with node := .confirmN, kw := { o.kw with char_class := some sel } }
  | .confirmN =>
    if pyLower (pyStrip i) = "y" ∨ pyLower (pyStrip i) = "yes" then
      let ch := (node_apply_character o.kw o.toChar "").1
      { node := .done, kw := o.kw, key := ch.key, race := ch.race
        char_class := ch.char_class, chargen_complete := ch.chargen_complete
        skills := ch.skills, scripts := ch.scripts }
    else if pyLower (pyStrip i) = "n" ∨ pyLower (pyStrip i) = "no" then
      { o with node := .nameN, kw := Kwargs.empty }
    else o
  | .done => o

/-- Witness data for C4: a confirm-step session full of accumulated
choices. -/
def confirmFull : MenuState :=
  { node := .confirmN
    kw := ⟨some "old@mail.com", some "Human", some "Warrior"⟩
    ch := { at_object_creation "Olga" with
            ndb_name := some "Olga"
            ndb_email := some "old@mail.com"
            ndb_race := some "Human"
            ndb_class := some "Warrior" }
    accountEmail := "old@mail.com" }

/-- Witness data for C4: a confirm-step session with no accumulated
choices and the same persistent character. -/
def confirmBare : MenuState :=
  { node := .confirmN, kw := Kwargs.empty
    ch := at_object_creation "Olga", accountEmail := "" }

/-! ### Resource loader (resources.py) -/

/-- Outcome of a file read attempt, abstracting the filesystem. -/
inductive ReadResult where
  | ok : String → ReadResult
  | fileNotFound : ReadResult
  | readError : String → ReadResult
deriving DecidableEq, Repr

/-- `get_text_resource(filename)` (resources.py lines 11-35) over an
abstract filesystem `fs`: return the file contents, or a formatted error
string for `FileNotFoundError` or any other exception — never a raised
failure. -/
def get_text_resource (fs : String → ReadResult) (filename : String) : String :=
  match fs filename with
  | .ok contents => contents
  | .fileNotFound =>
    "Error: Could not find resource file " ++ sq ++ filename ++ sq
  | .readError e => "Error loading resource: " ++ e

/-! ## Helper lemmas -/

/-- A string with a non-empty prefix is non-empty. -/
theorem append_ne_empty (s t : String) (h : s.length ≠ 0) : s ++ t ≠ "" := by
  intro he
  have hl := congrArg String.length he
  simp only [String.length_append, String.length_empty] at hl
  omega

/-- The quoted-identifier error messages of the registries are non-empty
strings (hence truthy in Python). -/
theorem quoted_msg_ne_empty (a nm b t : String) (h : a.length ≠ 0) :
    a ++ sq ++ nm ++ sq ++ b ++ t ≠ "" := by
  intro he
  have hl := congrArg String.length he
  simp only [String.length_append, String.length_empty] at hl
  omega

/-- `checkName` in decision-then-update form. -/
theorem checkName_eq (env : List String) (ch : Character) (input : String) :
    checkName env ch input =
      if nameValid env input then
        some { ch with key := pyCapitalize (pyStrip input),
                       ndb_name := some (pyCapitalize (pyStrip input)) }
      else none := by
  unfold checkName nameValid
  split_ifs <;> simp_all

/-- A successful selection comes from the listing. -/
theorem checkSelection_mem (available : List String) (input : String)
    (x : String) (h : checkSelection available input = some x) : x ∈ available := by
  simp only [checkSelection] at h
  split at h
  · exact Option.noConfusion h
  · split at h
    next n heq =>
      split at h
      next hrange =>
        rw [Option.some.injEq] at h
        subst h
        have hlt : (n - 1).toNat < available.length := by omega
        rw [List.getD_eq_getElem _ _ hlt]
        exact List.getElem_mem hlt
      next => exact Option.noConfusion h
    next heq =>
      split at h
      next hc =>
        rw [Option.some.injEq] at h
        subst h
        simpa using hc
      next => exact Option.noConfusion h

/-- `race_map` only ever returns the Human race. -/
theorem race_map_eq {k : String} {rd : RaceDef} (h : race_map k = some rd) :
    rd = HumanRace := by
  unfold race_map at h
  split_ifs at h
  exact (Option.some.inj h).symm

/-- `class_map` only ever returns the Warrior class. -/
theorem class_map_eq {k : String} {cd : ClassDef} (h : class_map k = some cd) :
    cd = WarriorClass := by
  unfold class_map at h
  split_ifs at h
  exact (Option.some.inj h).symm

/-- Shape of a successful `apply_race`. -/
theorem apply_race_ok {c c' : Character} {rn : String}
    (h : apply_race c rn = (.ok, c')) :
    race_map (pyLower rn) = some HumanRace ∧
    c' = { c with
           scripts := c.scripts.filter
               (fun sc => !race_keys.contains (Script.key sc)) ++ [mkRaceScript HumanRace]
           race := some HumanRace.name } := by
  unfold apply_race at h
  rcases hm : race_map (pyLower rn) with _ | rd <;> rw [hm] at h
  · simp at h
  · have hrd := race_map_eq hm
    subst hrd
    refine ⟨rfl, ?_⟩
    simpa using h.symm

/-- Shape of a successful `apply_class`. -/
theorem apply_class_ok {c c' : Character} {cn : String}
    (h : apply_class c cn = (.ok, c')) :
    class_map (pyLower cn) = some WarriorClass ∧
    c' = { c with
           scripts := c.scripts.filter
               (fun sc => !class_keys.contains (Script.key sc)) ++ [mkClassScript WarriorClass]
           char_class := some WarriorClass.name
           skills := WarriorClass.skills } := by
  unfold apply_class at h
  rcases hm : class_map (pyLower cn) with _ | cd <;> rw [hm] at h
  · simp at h
  · have hcd := class_map_eq hm
    subst hcd
    refine ⟨rfl, ?_⟩
    simpa using h.symm

/-! ## Claim C5 -/

/-- C5: for every character and every race name whose lowercase form is
not a registry key, `apply_race` returns the failure string naming the
valid race identifiers (the `raceMapKeys` list, spelled out in the
message) and leaves the character, fields and attached scripts alike,
completely unmodified. -/
theorem apply_race_unknown_unmodified (character : Character) (race_name : String)
    (h : race_map (pyLower race_name) = none) :
    apply_race character race_name =
      (.err ("Race " ++ sq ++ race_name ++ sq ++ " not found. Available races: "
          ++ String.intercalate ", " raceMapKeys), character) := by
  unfold apply_race
  rw [h]

/-- Witness for C5 at the unknown race name "Elf". -/
theorem apply_race_unknown_unmodified_witness :
    apply_race (at_object_creation "hero") "Elf" =
      (.err ("Race " ++ sq ++ "Elf" ++ sq ++ " not found. Available races: "
          ++ String.intercalate ", " raceMapKeys), at_object_creation "hero") :=
  apply_race_unknown_unmodified (at_object_creation "hero") "Elf" (by decide)

/-- Filtering for `p` after filtering for `!p` yields nothing. -/
theorem filter_not_filter (p : Script → Bool) (l : List Script) :
    (l.filter (fun sc => !p sc)).filter p = [] := by
  apply List.filter_eq_nil_iff.mpr
  intro a ha
  have := List.mem_filter.mp ha
  simp_all

/-- Filtering for `p` still yields nothing after an intermediate filter. -/
theorem filter_after_not_filter (p q : Script → Bool) (l : List Script) :
    ((l.filter (fun sc => !p sc)).filter q).filter p = [] := by
  apply List.filter_eq_nil_iff.mpr
  intro a ha
  have h1 := List.mem_filter.mp ha
  have h2 := List.mem_filter.mp h1.1
  simp_all

/-- `apply_race` at the valid identifier "Human", explicitly. -/
theorem apply_race_human (ch : Character) :
    apply_race ch "Human" =
      (.ok, { ch with
              scripts := ch.scripts.filter
                  (fun sc => !race_keys.contains (Script.key sc)) ++ [mkRaceScript HumanRace]
              race := some HumanRace.name }) := rfl

/-- `apply_class` at the valid identifier "Warrior", explicitly. -/
theorem apply_class_warrior (ch : Character) :
    apply_class ch "Warrior" =
      (.ok, { ch with
              scripts := ch.scripts.filter
                  (fun sc => !class_keys.contains (Script.key sc)) ++ [mkClassScript WarriorClass]
              char_class := some WarriorClass.name
              skills := WarriorClass.skills }) := rfl

/-- When the threaded race/class choices are validated registry names (or
absent, defaulting to "Human"/"Warrior"), the terminal apply step
completes generation with both registries successfully applied, leaving
the `ndb` shadow fields untouched. -/
theorem node_apply_character_good (kw : Kwargs) (ch : Character) (ae : String)
    (hr : GoodRaceOpt kw.race) (hc : GoodClassOpt kw.char_class) :
    (node_apply_character kw ch ae).1.chargen_complete = true ∧
    raceApplied (node_apply_character kw ch ae).1 ∧
    classApplied (node_apply_character kw ch ae).1 ∧
    (node_apply_character kw ch ae).1.ndb_race = ch.ndb_race ∧
    (node_apply_character kw ch ae).1.ndb_class = ch.ndb_class := by
  have hrn : kw.race.getD "Human" = "Human" := by
    rcases hr with h | h <;> simp [h]
  have hcn : kw.char_class.getD "Warrior" = "Warrior" := by
    rcases hc with h | h <;> simp [h]
  simp [node_apply_character, hrn, hcn, apply_race_human, apply_class_warrior,
    ApplyResult.truthy, raceApplied, classApplied, List.filter_append,
    filter_not_filter, filter_after_not_filter, mkRaceScript, mkClassScript,
    race_keys, class_keys, HumanRace, WarriorClass]
  exact ⟨fun a _ h _ => h, fun a _ h h2 => absurd h h2⟩

/-- A conditional restoration between two well-formed race values is
well-formed. -/
theorem goodRaceOpt_ite {c : Prop} [Decidable c] {a b : Option String}
    (hb : GoodRaceOpt b) (ha : GoodRaceOpt a) :
    GoodRaceOpt (if c then b else a) := by
  split <;> assumption

/-- The invariant holds at the initial menu state. -/
theorem inv_init (accountKey accountEmail : String) :
    Inv (chargenInit accountKey accountEmail) :=
  ⟨Or.inl rfl, Or.inl rfl, Or.inl rfl, Or.inl rfl,
   fun _ => rfl, fun hd => nomatch hd⟩

/-- Preservation of the workflow invariant by one input step. -/
theorem inv_step (env : List String) (s : MenuState) (i : String)
    (h : Inv s) : Inv (step env s i) := by
  rcases s with ⟨node, kw, ch, ae⟩
  obtain ⟨h1, h2, h3, h4, h5, h6⟩ := h
  unfold Inv
  cases node with
  | welcome =>
    simp only [step]
    exact ⟨Or.inl rfl, h2, Or.inl rfl, h4,
      fun _ => h5 (fun hd => nomatch hd), fun hd => nomatch hd⟩
  | nameN =>
    by_cases hv : nameValid env i
    · simp only [step, checkName_eq, if_pos hv]
      exact ⟨h1, h2, h3, h4,
        fun _ => h5 (fun hd => nomatch hd), fun hd => nomatch hd⟩
    · simp only [step, checkName_eq, if_neg hv]
      exact ⟨h1, h2, h3, h4, h5, h6⟩
  | emailN =>
    cases hc : checkEmail i with
    | none =>
      simp only [step, hc]
      exact ⟨h1, h2, h3, h4, h5, h6⟩
    | some e =>
      simp only [step, hc]
      exact ⟨Or.inl rfl, h2, Or.inl rfl, h4,
        fun _ => h5 (fun hd => nomatch hd), fun hd => nomatch hd⟩
  | raceN =>
    cases hc : checkSelection get_available_races i with
    | none =>
      simp only [step, hc]
      exact ⟨h1, h2, h3, h4, h5, h6⟩
    | some sel =>
      have hsel : sel = "Human" := by
        have := checkSelection_mem _ _ _ hc
        simpa [get_available_races] using this
      subst hsel
      simp only [step, hc]
      exact ⟨Or.inr rfl, Or.inr rfl, h3, h4,
        fun _ => h5 (fun hd => nomatch hd), fun hd => nomatch hd⟩
  | classN =>
    cases hc : checkSelection get_available_classes i with
    | none =>
      simp only [step, hc]
      exact ⟨h1, h2, h3, h4, h5, h6⟩
    | some sel =>
      have hsel : sel = "Warrior" := by
        have := checkSelection_mem _ _ _ hc
        simpa [get_available_classes] using this
      subst hsel
      simp only [step, hc]
      exact ⟨goodRaceOpt_ite h2 (goodRaceOpt_ite h2 h1), h2, Or.inr rfl, Or.inr rfl,
        fun _ => h5 (fun hd => nomatch hd), fun hd => nomatch hd⟩
  | confirmN =>
    by_cases hy : pyLower (pyStrip i) = "y" ∨ pyLower (pyStrip i) = "yes"
    · simp only [step]
      rw [if_pos hy]
      have hg := node_apply_character_good kw ch ae h1 h3
      refine ⟨h1, ?_, h3, ?_, fun hnd => absurd rfl hnd,
        fun _ => ⟨hg.1, hg.2.1, hg.2.2.1⟩⟩
      · rw [hg.2.2.2.1]
        exact h2
      · rw [hg.2.2.2.2]
        exact h4
    · by_cases hn : pyLower (pyStrip i) = "n" ∨ pyLower (pyStrip i) = "no"
      · simp only [step]
        rw [if_neg hy, if_pos hn]
        exact ⟨Or.inl rfl, h2, Or.inl rfl, h4,
          fun _ => h5 (fun hd => nomatch hd), fun hd => nomatch hd⟩
      · simp only [step]
        rw [if_neg hy, if_neg hn]
        exact ⟨h1, h2, h3, h4, h5, h6⟩
  | done =>
    exact ⟨h1, h2, h3, h4, h5, h6⟩

/-! ## Claim C2 -/

/-- C2: over every menu state reachable through the chargen workflow
(started by `start_chargen` on a freshly created character), the
character's `chargen_complete` field is true only if a race and a class
have both been successfully applied: the race (resp. class) field holds
the registry race (resp. class) name with exactly one race (resp.
class) definition script attached, the class skills copied over. -/
theorem chargen_complete_invariant (env : List String)
    (accountKey accountEmail : String) (s : MenuState)
    (hreach : Reachable env (chargenInit accountKey accountEmail) s)
    (hdone : s.ch.chargen_complete = true) :
    raceApplied s.ch ∧ classApplied s.ch := by
  have hinv : Inv s := by
    clear hdone
    induction hreach with
    | refl => exact inv_init accountKey accountEmail
    | tail i hr ih => exact inv_step _ _ _ ih
  obtain ⟨-, -, -, -, h5, h6⟩ := hinv
  by_cases hn : s.node = .done
  · exact (h6 hn).2
  · rw [h5 hn] at hdone
    exact absurd hdone (by simp)

/-- Running a list of inputs only visits reachable states. -/
theorem reachable_run (env : List String) (init : MenuState)
    (inputs : List String) : Reachable env init (run env init inputs) := by
  have htrans : ∀ {a b c : MenuState}, Reachable env a b → Reachable env b c →
      Reachable env a c := by
    intro a b c hab hbc
    induction hbc with
    | refl => exact hab
    | tail i hr ih => exact .tail i ih
  induction inputs generalizing init with
  | nil => exact .refl
  | cons i is ih =>
    exact htrans (Reachable.tail i .refl) (ih (step env init i))

/-- Witness for C2: the end-to-end happy path (name "Arin", email
skipped, race "1", class "warrior", confirm "y") reaches a state with
`chargen_complete = true`, where both registries were applied. -/
theorem chargen_complete_invariant_witness :
    raceApplied (run [] (chargenInit "arin" "") ["", "Arin", "", "1", "warrior", "y"]).ch ∧
    classApplied (run [] (chargenInit "arin" "") ["", "Arin", "", "1", "warrior", "y"]).ch :=
  chargen_complete_invariant [] "arin" "" _
    (reachable_run [] (chargenInit "arin" "") ["", "Arin", "", "1", "warrior", "y"])
    (by decide)

/-! ## Claim C4: observational independence lemmas -/

/-- The observable fields of the terminal apply step's result do not
depend on the character's shadow fields or the account email. -/
theorem node_apply_character_congr (kw : Kwargs) (ch ch' : Character)
    (ae ae' : String)
    (hk : ch.key = ch'.key) (hr : ch.race = ch'.race)
    (hc : ch.char_class = ch'.char_class)
    (hcc : ch.chargen_complete = ch'.chargen_complete)
    (hsk : ch.skills = ch'.skills) (hs : ch.scripts = ch'.scripts) :
    (node_apply_character kw ch ae).1.key = (node_apply_character kw ch' ae').1.key ∧
    (node_apply_character kw ch ae).1.race = (node_apply_character kw ch' ae').1.race ∧
    (node_apply_character kw ch ae).1.char_class =
      (node_apply_character kw ch' ae').1.char_class ∧
    (node_apply_character kw ch ae).1.chargen_complete =
      (node_apply_character kw ch' ae').1.chargen_complete ∧
    (node_apply_character kw ch ae).1.skills = (node_apply_character kw ch' ae').1.skills ∧
    (node_apply_character kw ch ae).1.scripts =
      (node_apply_character kw ch' ae').1.scripts := by
  simp only [node_apply_character, apply_race, apply_class]
  rcases hm : race_map (pyLower (kw.race.getD "Human")) with _ | rd <;>
    rcases hm2 : class_map (pyLower (kw.char_class.getD "Warrior")) with _ | cd <;>
      simp [hm, hm2, ApplyResult.truthy, hk, hr, hc, hcc, hsk, hs] <;>
        split_ifs <;> simp [hk, hr, hc, hcc, hsk, hs]

/-- Under the shape invariant, one step's observable outcome is a
function of the observable state alone, and the shape is preserved. -/
theorem obs_step (env : List String) (s : MenuState) (i : String)
    (hsh : Shape s) :
    (step env s i).obs = stepObs env s.obs i ∧ Shape (step env s i) := by
  rcases s with ⟨node, kw, ch, ae⟩
  cases node with
  | welcome =>
    simp only [Shape] at hsh
    subst hsh
    constructor
    · simp [step, stepObs, MenuState.obs, enterNode]
    · simp [step, Shape, enterNode]
  | nameN =>
    simp only [Shape] at hsh
    subst hsh
    by_cases hv : nameValid env i
    · constructor
      · simp [step, stepObs, MenuState.obs, checkName_eq, hv, enterNode]
      · simp [step, Shape, checkName_eq, hv, enterNode]
    · constructor
      · simp [step, stepObs, MenuState.obs, checkName_eq, hv]
      · simp [step, Shape, checkName_eq, hv]
  | emailN =>
    simp only [Shape] at hsh
    subst hsh
    cases hc : checkEmail i with
    | none =>
      constructor
      · simp [step, stepObs, MenuState.obs, hc]
      · simp [step, Shape, hc]
    | some e =>
      constructor
      · simp [step, stepObs, MenuState.obs, hc, enterNode]
      · simp [step, Shape, hc, enterNode]
  | raceN =>
    simp only [Shape] at hsh
    obtain ⟨e, hkw, hnd⟩ := hsh
    subst hkw
    cases hc : checkSelection get_available_races i with
    | none =>
      constructor
      · simp [step, stepObs, MenuState.obs, hc]
      · simp only [step, hc]
        exact ⟨e, rfl, hnd⟩
    | some sel =>
      have hsel : sel = "Human" := by
        have := checkSelection_mem _ _ _ hc
        simpa [get_available_races] using this
      subst hsel
      constructor
      · simp [step, stepObs, MenuState.obs, hc, enterNode, hnd, optTruthy]
      · simp only [step, hc]
        refine ⟨e, "Human", ?_, hnd, rfl, by decide⟩
        simp [enterNode, optTruthy]
  | classN =>
    simp only [Shape] at hsh
    obtain ⟨e, r, hkw, hne, hnr, hrne⟩ := hsh
    subst hkw
    cases hc : checkSelection get_available_classes i with
    | none =>
      constructor
      · simp [step, stepObs, MenuState.obs, hc]
      · simp only [step, hc]
        exact ⟨e, r, rfl, hne, hnr, hrne⟩
    | some sel =>
      have hsel : sel = "Warrior" := by
        have := checkSelection_mem _ _ _ hc
        simpa [get_available_classes] using this
      subst hsel
      constructor
      · simp [step, stepObs, MenuState.obs, hc, enterNode, hne, hnr, hrne,
          optTruthy, String.isEmpty_iff]
      · simp only [step, hc]
        refine ⟨e, r, "Warrior", ?_, hne, hnr, hrne, rfl, by decide⟩
        simp [enterNode, optTruthy, String.isEmpty_iff, hrne]
  | confirmN =>
    simp only [Shape] at hsh
    obtain ⟨e, r, c, hkw, hne, hnr, hrne, hnc, hcne⟩ := hsh
    subst hkw
    by_cases hy : pyLower (pyStrip i) = "y" ∨ pyLower (pyStrip i) = "yes"
    · have hcg := node_apply_character_congr ⟨some e, some r, some c⟩ ch
        (Obs.toChar (MenuState.obs
          ⟨.confirmN, ⟨some e, some r, some c⟩, ch, ae⟩)) ae ""
        rfl rfl rfl rfl rfl rfl
      constructor
      · simp [step, stepObs, MenuState.obs, hy, hcg.1, hcg.2.1, hcg.2.2.1,
          hcg.2.2.2.1, hcg.2.2.2.2.1, hcg.2.2.2.2.2]
      · simp only [step]
        rw [if_pos hy]
        exact trivial
    · by_cases hn : pyLower (pyStrip i) = "n" ∨ pyLower (pyStrip i) = "no"
      · constructor
        · simp [step, stepObs, MenuState.obs, hy, hn, enterNode]
        · simp only [step]
          rw [if_neg hy, if_pos hn]
          exact rfl
      · constructor
        · simp [step, stepObs, MenuState.obs, hy, hn]
        · simp only [step]
          rw [if_neg hy, if_neg hn]
          exact ⟨e, r, c, rfl, hne, hnr, hrne, hnc, hcne⟩
  | done =>
    constructor
    · rfl
    · exact trivial

/-- Two shape-respecting states with equal observables stay
observationally equal along any list of further inputs. -/
theorem run_obs (env : List String) (inputs : List String) :
    ∀ s1 s2 : MenuState, Shape s1 → Shape s2 → s1.obs = s2.obs →
      (run env s1 inputs).obs = (run env s2 inputs).obs := by
  induction inputs with
  | nil =>
    intro s1 s2 _ _ h
    exact h
  | cons i is ih =>
    intro s1 s2 hs1 hs2 hobs
    have o1 := obs_step env s1 i hs1
    have o2 := obs_step env s2 i hs2
    exact ih _ _ o1.2 o2.2 (by rw [o1.1, o2.1, hobs])

/-! ## Claim C4 -/

/-- C4: at the confirm step, any session with any accumulated choices
receiving "n" moves to the name step with the threaded kwargs cleared
and the character and account untouched; and no previously chosen
email, race or class value is visible to any subsequent step: two
confirm-step sessions agreeing on the character's persistent fields but
holding arbitrarily different accumulated choices (kwargs, ndb shadow
fields, account email) are observationally identical along every
continuation of the restarted flow. -/
theorem confirm_no_restart_leak (env : List String) (s1 s2 : MenuState)
    (inputs : List String)
    (h1 : s1.node = .confirmN) (h2 : s2.node = .confirmN)
    (hkey : s1.ch.key = s2.ch.key) (hrace : s1.ch.race = s2.ch.race)
    (hclass : s1.ch.char_class = s2.ch.char_class)
    (hcomp : s1.ch.chargen_complete = s2.ch.chargen_complete)
    (hskills : s1.ch.skills = s2.ch.skills)
    (hscripts : s1.ch.scripts = s2.ch.scripts) :
    (step env s1 "n").node = .nameN ∧ (step env s1 "n").kw = Kwargs.empty ∧
    (step env s1 "n").ch = s1.ch ∧
    (step env s1 "n").accountEmail = s1.accountEmail ∧
    (run env (step env s1 "n") inputs).obs =
      (run env (step env s2 "n") inputs).obs := by
  rcases s1 with ⟨n1, kw1, ch1, ae1⟩
  rcases s2 with ⟨n2, kw2, ch2, ae2⟩
  simp only at h1 h2 hkey hrace hclass hcomp hskills hscripts
  subst h1
  subst h2
  have hpn : pyLower (pyStrip "n") = "n" := rfl
  have hstep1 : step env ⟨.confirmN, kw1, ch1, ae1⟩ "n" =
      ⟨.nameN, Kwargs.empty, ch1, ae1⟩ := by
    simp [step, hpn, enterNode]
  have hstep2 : step env ⟨.confirmN, kw2, ch2, ae2⟩ "n" =
      ⟨.nameN, Kwargs.empty, ch2, ae2⟩ := by
    simp [step, hpn, enterNode]
  rw [hstep1, hstep2]
  refine ⟨rfl, rfl, rfl, rfl, ?_⟩
  apply run_obs
  · rfl
  · rfl
  · simp [MenuState.obs, hkey, hrace, hclass, hcomp, hskills, hscripts]

/-- Witness for C4: after "n", the full and the bare session both land
on the name step with the kwargs cleared, and a fresh run of inputs
drives them to observationally identical outcomes. -/
theorem confirm_no_restart_leak_witness :
    (step [] confirmFull "n").node = .nameN ∧
    (step [] confirmFull "n").kw = Kwargs.empty ∧
    (step [] confirmFull "n").ch = confirmFull.ch ∧
    (step [] confirmFull "n").accountEmail = confirmFull.accountEmail ∧
    (run [] (step [] confirmFull "n") ["Bob", "", "1", "warrior", "y"]).obs =
      (run [] (step [] confirmBare "n") ["Bob", "", "1", "warrior", "y"]).obs :=
  confirm_no_restart_leak [] confirmFull confirmBare
    ["Bob", "", "1", "warrior", "y"] rfl rfl rfl rfl rfl rfl rfl rfl


/-! ## Claim C6 -/

/-- C6: every successful `apply_race` (resp. `apply_class`) leaves exactly
one race-definition (resp. class-definition) script attached to the
character, and the scripts whose keys are outside the known race (resp.
class) key set are preserved exactly; applied to each call of a sequence
of successful calls, this gives the claimed invariant after every step. -/
theorem apply_scripts_exactly_one (c : Character) (rn cn : String) :
    (∀ c', apply_race c rn = (.ok, c') →
      (c'.scripts.filter (fun sc => race_keys.contains (Script.key sc))).length = 1 ∧
      c'.scripts.filter (fun sc => !race_keys.contains (Script.key sc)) =
        c.scripts.filter (fun sc => !race_keys.contains (Script.key sc))) ∧
    (∀ c', apply_class c cn = (.ok, c') →
      (c'.scripts.filter (fun sc => class_keys.contains (Script.key sc))).length = 1 ∧
      c'.scripts.filter (fun sc => !class_keys.contains (Script.key sc)) =
        c.scripts.filter (fun sc => !class_keys.contains (Script.key sc))) := by
  constructor
  · intro c' h
    obtain ⟨-, rfl⟩ := apply_race_ok h
    refine ⟨?_, ?_⟩ <;>
      simp [List.filter_append, List.filter_filter, mkRaceScript] <;> decide
  · intro c' h
    obtain ⟨-, rfl⟩ := apply_class_ok h
    refine ⟨?_, ?_⟩ <;>
      simp [List.filter_append, List.filter_filter, mkClassScript] <;> decide

/-- Witness for C6: a character carrying a stale race script and an
unrelated quest script; after `apply_race` exactly one race script is
attached and the quest script survives. -/
theorem apply_scripts_exactly_one_witness :
    ((apply_race { at_object_creation "hero" with
        scripts := [⟨"human_race", "Human", []⟩, ⟨"quest_script", "Q", []⟩] }
        "Human").2.scripts.filter
          (fun sc => race_keys.contains (Script.key sc))).length = 1 ∧
    (apply_race { at_object_creation "hero" with
        scripts := [⟨"human_race", "Human", []⟩, ⟨"quest_script", "Q", []⟩] }
        "Human").2.scripts.filter (fun sc => !race_keys.contains (Script.key sc)) =
      ({ at_object_creation "hero" with
        scripts := [⟨"human_race", "Human", []⟩, ⟨"quest_script", "Q", []⟩]
        : Character }).scripts.filter (fun sc => !race_keys.contains (Script.key sc)) :=
  (apply_scripts_exactly_one { at_object_creation "hero" with
      scripts := [⟨"human_race", "Human", []⟩, ⟨"quest_script", "Q", []⟩] }
      "Human" "Warrior").1 _ (by decide)

/-! ## Claim C7 -/

/-- C7: at the name step, every input whose stripped form is shorter than
2 characters, longer than 16, or not purely alphabetic is rejected: the
menu state (character, account and node included) is left untouched, so
the same step re-prompts. -/
theorem name_invalid_rejected (env : List String) (s : MenuState) (input : String)
    (hnode : s.node = .nameN)
    (hbad : (pyStrip input).length < 2 ∨ 16 < (pyStrip input).length ∨
      pyIsAlpha (pyStrip input) = false) :
    step env s input = s := by
  have hnv : nameValid env input = false := by
    unfold nameValid
    rcases hbad with h | h | h <;> simp [h]
  have hcn : checkName env s.ch input = none := by
    rw [checkName_eq, hnv]
    simp
  rcases s with ⟨node, kw, ch, ae⟩
  simp only at hnode
  subst hnode
  simp [step, hcn]

/-- Witness for C7: the two-character input "a1" contains a digit. -/
theorem name_invalid_rejected_witness :
    step [] { node := .nameN, kw := Kwargs.empty
              ch := at_object_creation "hero", accountEmail := "" } "a1" =
      { node := .nameN, kw := Kwargs.empty
        ch := at_object_creation "hero", accountEmail := "" } :=
  name_invalid_rejected [] _ "a1" rfl (by decide)

/-! ## Claim C8 -/

/-- C8: requesting character generation for an account whose character
has `chargen_complete = true` refuses to start the menu, emits the
"already completed" notice and returns the account (character included)
unchanged. -/
theorem start_chargen_already_complete (acct : AccountState) (ch : Character)
    (hch : acct.lastPuppet = some ch) (hc : ch.chargen_complete = true) :
    start_chargen acct =
      (acct, .alreadyComplete, ["Character generation already completed."]) := by
  unfold start_chargen
  rw [hch]
  simp [hc]

/-- Witness for C8 on a concrete completed character. -/
theorem start_chargen_already_complete_witness :
    start_chargen { key := "bob", email := ""
                    lastPuppet := some { at_object_creation "Bob" with chargen_complete := true } } =
      ({ key := "bob", email := ""
         lastPuppet := some { at_object_creation "Bob" with chargen_complete := true } },
       .alreadyComplete, ["Character generation already completed."]) :=
  start_chargen_already_complete _ _ rfl (by decide)

/-! ## Claim C9 -/

/-- C9: `get_text_resource` always returns a string: the file contents
when the read succeeds, and a formatted human-readable error string when
the file is missing or any other read error occurs (no failure is ever
propagated: the function is total by construction). -/
theorem get_text_resource_total (fs : String → ReadResult) (filename : String) :
    (∀ c, fs filename = .ok c → get_text_resource fs filename = c) ∧
    (fs filename = .fileNotFound →
      get_text_resource fs filename =
        "Error: Could not find resource file " ++ sq ++ filename ++ sq) ∧
    (∀ e, fs filename = .readError e →
      get_text_resource fs filename = "Error loading resource: " ++ e) := by
  refine ⟨?_, ?_, ?_⟩
  · intro c h
    simp [get_text_resource, h]
  · intro h
    simp [get_text_resource, h]
  · intro e h
    simp [get_text_resource, h]

/-- Witness for C9 on a filesystem with the file missing. -/
theorem get_text_resource_total_witness :
    get_text_resource (fun _ => ReadResult.fileNotFound) "legal.txt" =
      "Error: Could not find resource file " ++ sq ++ "legal.txt" ++ sq :=
  (get_text_resource_total (fun _ => ReadResult.fileNotFound) "legal.txt").2.1 rfl

/-! ## Claim C10 -/

/-- C10: the return value of `apply_race`/`apply_class` is truthy on both
the success path (`True`) and the failure path (a non-empty error
string), so a caller testing the result for falsiness (as
`node_apply_character` does with `if not success:`) cannot distinguish
failure from success. -/
theorem apply_result_always_truthy (c : Character) (nm : String) :
    (apply_race c nm).1.truthy = true ∧ (apply_class c nm).1.truthy = true ∧
    (race_map (pyLower nm) = none →
      ∃ m, (apply_race c nm).1 = .err m ∧ m ≠ "") ∧
    (class_map (pyLower nm) = none →
      ∃ m, (apply_class c nm).1 = .err m ∧ m ≠ "") := by
  refine ⟨?_, ?_, ?_, ?_⟩
  · unfold apply_race
    rcases hm : race_map (pyLower nm) with _ | rd <;>
      simp [hm, ApplyResult.truthy, Bool.not_eq_true', Bool.eq_false_iff,
        String.isEmpty_iff]
    exact quoted_msg_ne_empty _ _ _ _ (by decide)
  · unfold apply_class
    rcases hm : class_map (pyLower nm) with _ | cd <;>
      simp [hm, ApplyResult.truthy, Bool.not_eq_true', Bool.eq_false_iff,
        String.isEmpty_iff]
    exact quoted_msg_ne_empty _ _ _ _ (by decide)
  · intro h
    unfold apply_race
    simp [h]
    exact quoted_msg_ne_empty _ _ _ _ (by decide)
  · intro h
    unfold apply_class
    simp [h]
    exact quoted_msg_ne_empty _ _ _ _ (by decide)

/-- Witness for C10 at the unknown identifier "Elf". -/
theorem apply_result_always_truthy_witness :
    (apply_race (at_object_creation "w") "Elf").1.truthy = true ∧
    (∃ m, (apply_race (at_object_creation "w") "Elf").1 = .err m ∧ m ≠ "") :=
  ⟨(apply_result_always_truthy (at_object_creation "w") "Elf").1,
   (apply_result_always_truthy (at_object_creation "w") "Elf").2.2.1 (by decide)⟩

/-! ## Claim C3 (corrected) -/

/-- C3 counterexample: the claim says the input "a@b" is accepted at the
email step and advances to the race step; in the code the validation
requires both an "@" and a ".", so "a@b" is rejected and the email step
re-prompts with the state unchanged. -/
theorem email_a_at_b_rejected :
    step [] { node := .emailN, kw := Kwargs.empty
              ch := at_object_creation "arin", accountEmail := "" } "a@b" =
      { node := .emailN, kw := Kwargs.empty
        ch := at_object_creation "arin", accountEmail := "" } ∧
    (step [] { node := .emailN, kw := Kwargs.empty
               ch := at_object_creation "arin", accountEmail := "" } "a@b").node ≠
      Node.raceN := by
  decide

/-- C3 amended: at the email step the empty input is accepted (skip) and
advances to the race step; an input containing both "@" and "." such as
"a@b.c" is accepted and advances; "a@b" (no "."), "ab" and "a.b" (no
"@") are rejected and the same step re-prompts with nothing changed. -/
theorem email_validation (env : List String) (s : MenuState)
    (hnode : s.node = .emailN) :
    (step env s "").node = .raceN ∧ (step env s "").kw.email = some "" ∧
    (step env s "a@b.c").node = .raceN ∧
    (step env s "a@b.c").kw.email = some "a@b.c" ∧
    step env s "a@b" = s ∧ step env s "ab" = s ∧ step env s "a.b" = s := by
  rcases s with ⟨node, kw, ch, ae⟩
  simp only at hnode
  subst hnode
  have h1 : checkEmail "" = some "" := rfl
  have h2 : checkEmail "a@b.c" = some "a@b.c" := rfl
  have h3 : checkEmail "a@b" = none := rfl
  have h4 : checkEmail "ab" = none := rfl
  have h5 : checkEmail "a.b" = none := rfl
  refine ⟨?_, ?_, ?_, ?_, ?_, ?_, ?_⟩ <;>
    simp [step, h1, h2, h3, h4, h5, enterNode]

/-- Witness for C3 (amended) at a concrete email-step state. -/
theorem email_validation_witness :
    (step [] { node := .emailN, kw := Kwargs.empty
               ch := at_object_creation "arin", accountEmail := "" } "").node =
      Node.raceN ∧
    step [] { node := .emailN, kw := Kwargs.empty
              ch := at_object_creation "arin", accountEmail := "" } "ab" =
      { node := .emailN, kw := Kwargs.empty
        ch := at_object_creation "arin", accountEmail := "" } :=
  ⟨(email_validation [] _ rfl).1, (email_validation [] _ rfl).2.2.2.2.2.1⟩

/-! ## Claim C1 (code bug) -/

/-- C1: the claim (and the code's own `# Fallback` comments and warning
messages) say the terminal apply step falls back to "Human"/"Warrior"
when a registry application fails, leaving non-placeholder values.  The
code tests `if not success:`, but `apply_race`/`apply_class` return a
non-empty (truthy) error string on failure, so the fallback branch never
runs: with the unknown identifiers "Elf"/"Mage" the character ends with
`chargen_complete = true` but `db.race`/`db.char_class` still at their
placeholder `None`. -/
theorem apply_step_no_fallback_bug :
    (node_apply_character ⟨some "", some "Elf", some "Mage"⟩
        (at_object_creation "hero") "").1.chargen_complete = true ∧
    (node_apply_character ⟨some "", some "Elf", some "Mage"⟩
        (at_object_creation "hero") "").1.race = none ∧
    (node_apply_character ⟨some "", some "Elf", some "Mage"⟩
        (at_object_creation "hero") "").1.char_class = none := by
  decide

end CommunityMUD
